import Mathlib

/-!
Shallow embedding of `src/app.py` (INAPROC e-katalog dashboard).

The program is a Streamlit dashboard around one HTTP client class
(`InaprocAPIClient`).  We embed:

* a `PyVal` type for the JSON-like Python values the app manipulates,
* the client method `get_ekatalog_data` (endpoint selection, query
  parameters, `raise_for_status`, the try/except display-and-reraise),
* the fetch-button handler and its session-state updates,
* the metadata metrics block,
* the search filter (pandas `str.contains` with its default regex
  semantics, embedded for patterns built from literals and `.`),
* `DataFrame.to_csv(index=False)` for string-valued frames, and
* `json.dumps(..., indent=2, ensure_ascii=False)`.

Machine integers do not overflow anywhere in the program, so numbers are
embedded as `Int`/`Nat`.
-/

namespace Inaproc

/-- JSON-like Python values as handled by the app (`response.json()` output,
session-state contents). -/
inductive PyVal where
  | str (s : String)
  | int (n : Int)
  | bool (b : Bool)
  | null
  | list (xs : List PyVal)
  | dict (kvs : List (String × PyVal))


/-- Python `dict.get(k)` on a dict given by its key/value list
(first binding wins; the app never builds duplicate keys). -/
def dictGet (kvs : List (String × PyVal)) (k : String) : Option PyVal :=
  (kvs.find? (fun kv => kv.1 == k)).map Prod.snd

/-- Python truthiness of a `PyVal` (`if meta:`). -/
def pyTruthyVal : PyVal → Bool
  | PyVal.str s => s != ""
  | PyVal.int n => n != 0
  | PyVal.bool b => b
  | PyVal.null => false
  | PyVal.list xs => !xs.isEmpty
  | PyVal.dict kvs => !kvs.isEmpty

/-- Python `len`; `Option.none` where Python `len` raises `TypeError`. -/
def pyLen : PyVal → Option Nat
  | PyVal.str s => some s.length
  | PyVal.list xs => some xs.length
  | PyVal.dict kvs => some kvs.length
  | _ => Option.none

/-- Python truthiness of an `Optional[str]` (`if start_date:`). -/
def pyTruthyOptStr : Option String → Bool
  | Option.none => false
  | some s => s != ""

/-! ## API client (`InaprocAPIClient.get_ekatalog_data`, src/app.py lines 17-66) -/

/-- `self.base_url` from `InaprocAPIClient.__init__`. -/
def base_url : String := "https://data.inaproc.id/api"

/-- Endpoint selection (src/app.py lines 36-40). -/
def endpoint (use_archive : Bool) : String :=
  if use_archive then base_url ++ "/v1/ekatalog-archive/paket-e-purchasing"
  else base_url ++ "/v1/ekatalog/paket-e-purchasing"

/-- Query-parameter construction (src/app.py lines 42-46): `limit` always,
`start_date` / `end_date` only when truthy (non-`None` and non-empty). -/
def buildParams (limit : Int) (start_date end_date : Option String) :
    List (String × String) :=
  [("limit", toString limit)]
    ++ (if pyTruthyOptStr start_date then [("start_date", start_date.getD "")] else [])
    ++ (if pyTruthyOptStr end_date then [("end_date", end_date.getD "")] else [])

/-- The HTTP response returned by the single `requests.get` call:
status code, raw body text, and the outcome of `response.json()`
(`Except.error` = `JSONDecodeError`, a `RequestException` subclass). -/
structure HttpResponse where
  status_code : Nat
  text : String
  jsonBody : Except String PyVal


/-- The typed errors the client raises: `requests.exceptions.HTTPError`
(carrying the response's status code and body) and other
`requests.exceptions.RequestException`s. -/
inductive FetchError where
  | httpError (status_code : Nat) (text : String)
  | requestError (msg : String)


/-- `Response.raise_for_status`: raises `HTTPError` exactly for 4xx
client errors and 5xx server errors, carrying the response. -/
def raise_for_status (r : HttpResponse) : Except FetchError Unit :=
  if 400 ≤ r.status_code ∧ r.status_code < 600 then
    Except.error (FetchError.httpError r.status_code r.text)
  else Except.ok ()

/-- The request `requests.get` is called with (src/app.py lines 49-54). -/
structure HttpRequest where
  url : String
  params : List (String × String)
  timeoutSeconds : Nat


/-- Outcome of one call of `get_ekatalog_data`: the single request issued,
the returned value or raised error, and the `st.error` lines displayed. -/
structure FetchCall where
  request : HttpRequest
  result : Except FetchError PyVal
  displayed : List String


/-- `InaprocAPIClient.get_ekatalog_data` (src/app.py lines 17-66).
`net` is the outcome of the one network round-trip: `Except.error` is a
transport-level `RequestException`, `Except.ok` a received response.
The method issues exactly one GET (one `net` is consumed), and on error
displays messages and re-raises without retrying. -/
def get_ekatalog_data (use_archive : Bool) (limit : Int)
    (start_date end_date : Option String)
    (net : Except String HttpResponse) : FetchCall :=
  let req : HttpRequest :=
    { url := endpoint use_archive,
      params := buildParams limit start_date end_date,
      timeoutSeconds := 30 }
  match net with
  | Except.error m =>
      { request := req,
        result := Except.error (FetchError.requestError m),
        displayed := ["❌ Request Error: " ++ m] }
  | Except.ok r =>
      match raise_for_status r with
      | Except.error e =>
          { request := req,
            result := Except.error e,
            displayed := ["❌ HTTP Error: " ++ toString r.status_code,
                          "Response: " ++ r.text] }
      | Except.ok _ =>
          match r.jsonBody with
          | Except.ok d =>
              { request := req, result := Except.ok d, displayed := [] }
          | Except.error m =>
              { request := req,
                result := Except.error (FetchError.requestError m),
                displayed := ["❌ Request Error: " ++ m] }

/-! ## Module-level widget glue and fetch handler (src/app.py lines 115-173) -/

/-- Date-filter inputs (src/app.py lines 115-134): both date strings are
`None` unless the checkbox is enabled, in which case they are the
`strftime`-formatted widget values. -/
def dateFilterValues (use_date_filter : Bool) (startStr endStr : String) :
    Option String × Option String :=
  if use_date_filter then (some startStr, some endStr)
  else (Option.none, Option.none)

/-- The three session-state keys the fetch handler writes
(`ekatalog_data`, `last_fetch`, `is_archive`); each is absent (`none`)
until first written. The fetch timestamp is abstracted as a `Nat`. -/
structure SessionState where
  ekatalog_data : Option PyVal
  last_fetch : Option Nat
  is_archive : Option Bool


/-- Python `str(e)` of a raised client error, as displayed by the handler.
The exact `requests` message text is not modelled; only its construction
from the error is. -/
def fetchErrorStr : FetchError → String
  | FetchError.httpError code text => toString code ++ " Error: " ++ text
  | FetchError.requestError m => m

/-- The `fetch_button` handler (src/app.py lines 153-173): call the client;
on success overwrite the three session keys; on any raised exception
display `Gagal mengambil data: ...` and leave the state as it was.
Returns the new state and every `st.error` line of the action. -/
def fetchAction (s : SessionState) (use_archive : Bool) (limit : Int)
    (start_date end_date : Option String) (now : Nat)
    (net : Except String HttpResponse) : SessionState × List String :=
  let call := get_ekatalog_data use_archive limit start_date end_date net
  match call.result with
  | Except.ok d =>
      ({ ekatalog_data := some d, last_fetch := some now,
         is_archive := some use_archive }, call.displayed)
  | Except.error e =>
      (s, call.displayed ++ ["Gagal mengambil data: " ++ fetchErrorStr e])

/-! ## Metadata metrics block (src/app.py lines 184-196) -/

/-- The four metrics rendered by the metadata block. -/
structure MetricsView where
  total_data : Nat
  page : PyVal
  per_page : PyVal
  total : PyVal


/-- Outcome of rendering one widget block: shown with a value, not rendered
at all, or a raised Python exception aborting the render. -/
inductive RenderOutcome (α : Type) where
  | shown (v : α)
  | hidden
  | error (msg : String)


/-- The metrics block (src/app.py lines 184-196):
`meta = ekatalog_data.get('meta', {})`; the whole block is rendered only
`if meta:` (truthy); inside it, `Total Data` is `len(data)` and the other
three metrics use `meta.get(key, 'N/A')`. -/
def metaBlock (ekatalog_data : List (String × PyVal)) : RenderOutcome MetricsView :=
  let meta := (dictGet ekatalog_data "meta").getD (PyVal.dict [])
  if pyTruthyVal meta then
    match meta with
    | PyVal.dict mkvs =>
        match pyLen ((dictGet ekatalog_data "data").getD (PyVal.list [])) with
        | some n =>
            RenderOutcome.shown
              { total_data := n,
                page := (dictGet mkvs "page").getD (PyVal.str "N/A"),
                per_page := (dictGet mkvs "per_page").getD (PyVal.str "N/A"),
                total := (dictGet mkvs "total").getD (PyVal.str "N/A") }
        | Option.none => RenderOutcome.error "TypeError: object has no len()"
    | _ => RenderOutcome.error "AttributeError: object has no attribute get"
  else RenderOutcome.hidden

/-! ## Search filter (src/app.py lines 205-213)

`df.astype(str)` turns every field into its string form, so the table is
embedded as a list of rows, each row the list of its fields' string forms.
`row.str.contains(search, case=False)` treats the search text as a
regular expression (`re.search` with `re.IGNORECASE`).  We embed the
regex semantics for the patterns the metacharacter-free fragment plus `.`
generates: each pattern character is either a literal or `.` (any
character but a newline).  Patterns using other metacharacters fall
outside the embedded domain (`Option.none`). -/

/-- Characters with a special meaning in Python regular expressions. -/
def regexMetaChars : List Char :=
  ['.', '^', '$', '*', '+', '?', '\x7b', '\x7d', '[', ']', '\\', '|', '(', ')']

/-- One atom of a simple pattern: a literal character or `.`. -/
inductive ReAtom where
  | dot
  | lit (c : Char)

/-- Read a pattern string as a sequence of simple atoms; `Option.none` if it
uses any regex metacharacter other than `.`. -/
def parseSimplePattern : List Char → Option (List ReAtom)
  | [] => some []
  | c :: cs =>
      if c = '.' then (parseSimplePattern cs).map (fun as => ReAtom.dot :: as)
      else if c ∈ regexMetaChars then Option.none
      else (parseSimplePattern cs).map (fun as => ReAtom.lit c :: as)

/-- One atom against one character, under `re.IGNORECASE` (ASCII case fold;
the app's data is ASCII-cased). `.` matches anything but a newline. -/
def atomMatches : ReAtom → Char → Bool
  | ReAtom.dot, c => c != '\n'
  | ReAtom.lit l, c => l.toLower == c.toLower

/-- Whether the atom sequence matches a prefix of the text. -/
def matchHere : List ReAtom → List Char → Bool
  | [], _ => true
  | _ :: _, [] => false
  | a :: as, c :: cs => atomMatches a c && matchHere as cs

/-- `re.search`: the atom sequence matches at some position of the text. -/
def reSearch (atoms : List ReAtom) : List Char → Bool
  | [] => matchHere atoms []
  | c :: cs => matchHere atoms (c :: cs) || reSearch atoms cs

/-- The row mask of src/app.py line 209: a row passes if any of its fields'
string forms matches the pattern. -/
def rowMatches (atoms : List ReAtom) (row : List String) : Bool :=
  row.any (fun field => reSearch atoms field.data)

/-- The search-filter block (src/app.py lines 205-213): an empty search text
is falsy, so the table is left unfiltered; otherwise `df[mask]` keeps the
rows whose mask is true, in order. `Option.none` only marks a pattern
outside the embedded regex fragment. -/
def searchFilter (search : String) (rows : List (List String)) :
    Option (List (List String)) :=
  if search = "" then some rows
  else (parseSimplePattern search.data).map (fun atoms => rows.filter (rowMatches atoms))

/-- Case-insensitive prefix test on character lists (ASCII case fold). -/
def isPrefixCI : List Char → List Char → Bool
  | [], _ => true
  | _ :: _, [] => false
  | a :: as, b :: bs => (a.toLower == b.toLower) && isPrefixCI as bs

/-- Case-insensitive substring test on character lists. -/
def substrCI (needle : List Char) : List Char → Bool
  | [] => isPrefixCI needle []
  | c :: cs => isPrefixCI needle (c :: cs) || substrCI needle cs

/-- Follows the spec's words: keep exactly the records in which the string
form of at least one field contains the search text as a case-insensitive
substring. -/
def specSubstringFilter (search : String) (rows : List (List String)) :
    List (List String) :=
  rows.filter (fun row => row.any (fun field => substrCI search.data field.data))

/-! ## CSV export (`filtered_df.to_csv(index=False)`, src/app.py line 227)

pandas `to_csv` with the default dialect: fields containing a comma, a
double quote, or a line break are wrapped in double quotes with inner
quotes doubled; records are comma-joined and each record ends with a
newline. With `index=True` pandas would prepend the row index as a first
column (and an empty header cell); the app passes `index=False`. -/

/-- Double every `"` in a field (CSV quote escaping). -/
def csvEscapeQuotes : List Char → List Char
  | [] => []
  | c :: cs =>
      if c = '"' then c :: c :: csvEscapeQuotes cs
      else c :: csvEscapeQuotes cs

/-- Quote a field when it contains a comma, quote, or line break
(`csv.QUOTE_MINIMAL`). -/
def csvField (s : List Char) : List Char :=
  if s.any (fun c => c == ',' || c == '"' || c == '\n' || c == '\r') then
    '"' :: (csvEscapeQuotes s ++ ['"'])
  else s

/-- One CSV record: the quoted fields joined with commas. -/
def csvRecord : List (List Char) → List Char
  | [] => []
  | [f] => csvField f
  | f :: fs => csvField f ++ ',' :: csvRecord fs

/-- `DataFrame.to_csv(index=...)` on a string-valued frame with the given
column names and rows: the header record then one record per row, each
followed by a newline; with `index` set, the row position is prepended as
an extra unnamed first column. -/
def to_csv (cols : List String) (rows : List (List String)) (index : Bool) :
    String :=
  let headerFields := if index then "" :: cols else cols
  let bodyRows :=
    if index then rows.enum.map (fun p => toString p.1 :: p.2) else rows
  let recs := csvRecord (headerFields.map String.data)
      :: bodyRows.map (fun r => csvRecord (r.map String.data))
  String.mk ((recs.map (fun l => l ++ ['\n'])).flatten)

/-- Split a character list at every occurrence of a separator character
(used for URL path segments and for text lines). -/
def splitOnChar (sep : Char) : List Char → List (List Char)
  | [] => [[]]
  | c :: cs =>
      if c = sep then [] :: splitOnChar sep cs
      else
        match splitOnChar sep cs with
        | [] => [[c]]
        | l :: ls => (c :: l) :: ls

/-- The `/`-separated segments of a URL. -/
def urlSegments (url : String) : List (List Char) :=
  splitOnChar '/' url.data

/-- Text lines of a character list (a trailing newline yields a final
empty fragment). -/
def splitLines (s : List Char) : List (List Char) :=
  splitOnChar '\n' s

/-! ## JSON export (`json.dumps(ekatalog_data, indent=2, ensure_ascii=False)`,
src/app.py line 239) -/

/-- Hexadecimal digit, lower case (as in Python's `\uXXXX` escapes). -/
def hexDigit (n : Nat) : Char :=
  if n < 10 then Char.ofNat (48 + n) else Char.ofNat (87 + n)

/-- JSON escaping of one character with `ensure_ascii=False`: only the
quote, the backslash and control characters are escaped; every other
character — non-ASCII included — is emitted verbatim. -/
def jsonEscapeChar (c : Char) : List Char :=
  if c = '"' then ['\\', '"']
  else if c = '\\' then ['\\', '\\']
  else if c = '\n' then ['\\', 'n']
  else if c = '\t' then ['\\', 't']
  else if c = '\r' then ['\\', 'r']
  else if c = '\x08' then ['\\', 'b']
  else if c = '\x0c' then ['\\', 'f']
  else if c.toNat < 32 then
    ['\\', 'u', '0', '0', hexDigit (c.toNat / 16), hexDigit (c.toNat % 16)]
  else [c]

/-- A JSON string literal (`json.dumps` of a `str`, `ensure_ascii=False`). -/
def jsonDumpStr (s : String) : String :=
  String.mk ('"' :: (s.data.flatMap jsonEscapeChar ++ ['"']))

/-- The indentation prefix at nesting depth `d` for `indent=2`. -/
def jsonIndent (d : Nat) : String :=
  String.mk (List.replicate (2 * d) ' ')

mutual

/-- `json.dumps(v, indent=2, ensure_ascii=False)` at nesting depth `d`. -/
def jsonDumpVal (d : Nat) : PyVal → String
  | PyVal.str s => jsonDumpStr s
  | PyVal.int n => toString n
  | PyVal.bool b => if b then "true" else "false"
  | PyVal.null => "null"
  | PyVal.list xs =>
      match xs with
      | [] => "[]"
      | _ => "[\n" ++ jsonDumpItems (d + 1) xs ++ "\n" ++ jsonIndent d ++ "]"
  | PyVal.dict kvs =>
      match kvs with
      | [] => "\x7b\x7d"
      | _ => "\x7b\n" ++ jsonDumpEntries (d + 1) kvs ++ "\n" ++ jsonIndent d ++ "\x7d"

/-- Comma-and-newline separated, indented array items. -/
def jsonDumpItems (d : Nat) : List PyVal → String
  | [] => ""
  | [x] => jsonIndent d ++ jsonDumpVal d x
  | x :: xs => jsonIndent d ++ jsonDumpVal d x ++ ",\n" ++ jsonDumpItems d xs

/-- Comma-and-newline separated, indented object entries (`": "` separator). -/
def jsonDumpEntries (d : Nat) : List (String × PyVal) → String
  | [] => ""
  | [kv] => jsonIndent d ++ jsonDumpStr kv.1 ++ ": " ++ jsonDumpVal d kv.2
  | kv :: kvs =>
      jsonIndent d ++ jsonDumpStr kv.1 ++ ": " ++ jsonDumpVal d kv.2
        ++ ",\n" ++ jsonDumpEntries d kvs

end

/-- `json.dumps(v, indent=2, ensure_ascii=False)`. -/
def pyJsonDumps (v : PyVal) : String := jsonDumpVal 0 v

/-- The two download payloads (src/app.py lines 226-246), built from the
stored response, the table derived from it and the search text: the CSV is
`filtered_df.to_csv(index=False)`, the JSON is
`json.dumps(ekatalog_data, indent=2, ensure_ascii=False)` of the full
stored response. -/
def renderDownloads (ekatalog_data : PyVal) (cols : List String)
    (rows : List (List String)) (search : String) : Option (String × String) :=
  (searchFilter search rows).map (fun filtered =>
    (to_csv cols filtered false, pyJsonDumps ekatalog_data))

/-! ## Helper lemmas -/

/-- A pattern free of regex metacharacters parses to its literal atoms. -/
theorem parseSimplePattern_of_plain (s : List Char)
    (h : ∀ c ∈ s, c ∉ regexMetaChars) :
    parseSimplePattern s = some (s.map ReAtom.lit) := by
  induction s with
  | nil => rfl
  | cons c cs ih =>
      have hc : c ∉ regexMetaChars := h c (List.mem_cons_self c cs)
      have hdot : c ≠ '.' := by
        intro heq
        exact hc (heq ▸ (by decide : ('.' : Char) ∈ regexMetaChars))
      simp [parseSimplePattern, hdot, hc,
        ih (fun d hd => h d (List.mem_cons_of_mem c hd))]

/-- On literal atoms, anchored matching is the case-insensitive prefix test. -/
theorem matchHere_lit (s hay : List Char) :
    matchHere (s.map ReAtom.lit) hay = isPrefixCI s hay := by
  induction s generalizing hay with
  | nil => cases hay <;> rfl
  | cons c cs ih =>
      cases hay with
      | nil => rfl
      | cons b bs => simp [matchHere, isPrefixCI, atomMatches, ih]

/-- On literal atoms, `re.search` is the case-insensitive substring test. -/
theorem reSearch_lit (s hay : List Char) :
    reSearch (s.map ReAtom.lit) hay = substrCI s hay := by
  induction hay with
  | nil => simp [reSearch, substrCI, matchHere_lit]
  | cons c cs ih => simp [reSearch, substrCI, matchHere_lit, ih]

/-- Splitting a separator-free block followed by a separator peels the block. -/
theorem splitOnChar_block (sep : Char) (A B : List Char) (h : sep ∉ A) :
    splitOnChar sep (A ++ sep :: B) = A :: splitOnChar sep B := by
  induction A with
  | nil => simp [splitOnChar]
  | cons c cs ih =>
      have hc : ¬ c = sep := fun hcs => h (hcs ▸ List.mem_cons_self c cs)
      have ihh := ih (fun hm => h (List.mem_cons_of_mem c hm))
      simp [splitOnChar, hc, ihh]

/-- Splitting a concatenation of separator-terminated, separator-free blocks
recovers the blocks (plus the empty fragment after the final separator). -/
theorem splitOnChar_blocks (sep : Char) (ls : List (List Char))
    (h : ∀ l ∈ ls, sep ∉ l) :
    splitOnChar sep ((ls.map (fun l => l ++ [sep])).flatten) = ls ++ [[]] := by
  induction ls with
  | nil => rfl
  | cons l ls ih =>
      have hl : sep ∉ l := h l (List.mem_cons_self l ls)
      have ihh := ih (fun m hm => h m (List.mem_cons_of_mem l hm))
      calc splitOnChar sep (((l :: ls).map (fun l => l ++ [sep])).flatten)
          = splitOnChar sep (l ++ sep :: (ls.map (fun l => l ++ [sep])).flatten) := by
            simp [List.flatten]
        _ = l :: splitOnChar sep ((ls.map (fun l => l ++ [sep])).flatten) :=
            splitOnChar_block sep l _ hl
        _ = (l :: ls) ++ [[]] := by rw [ihh]; rfl

/-- CSV quote escaping introduces no new characters. -/
theorem mem_csvEscapeQuotes (c : Char) : ∀ s : List Char,
    c ∈ csvEscapeQuotes s → c ∈ s
  | [], h => by simp [csvEscapeQuotes] at h
  | d :: ds, h => by
      by_cases hd : d = '"'
      · rw [csvEscapeQuotes, if_pos hd] at h
        rcases List.mem_cons.mp h with h1 | h
        · exact h1 ▸ List.mem_cons_self d ds
        · rcases List.mem_cons.mp h with h1 | h
          · exact h1 ▸ List.mem_cons_self d ds
          · exact List.mem_cons_of_mem d (mem_csvEscapeQuotes c ds h)
      · rw [csvEscapeQuotes, if_neg hd] at h
        rcases List.mem_cons.mp h with h1 | h
        · exact h1 ▸ List.mem_cons_self d ds
        · exact List.mem_cons_of_mem d (mem_csvEscapeQuotes c ds h)

/-- A newline-free field stays newline-free after CSV quoting. -/
theorem newline_notin_csvField (s : List Char) (h : '\n' ∉ s) :
    '\n' ∉ csvField s := by
  unfold csvField
  by_cases hq : (s.any fun c => c == ',' || c == '"' || c == '\n' || c == '\r') = true
  · simp only [hq, if_true]
    intro hm
    rcases List.mem_cons.mp hm with h1 | hm
    · exact absurd h1 (by decide)
    · rcases List.mem_append.mp hm with hm | hm
      · exact h (mem_csvEscapeQuotes _ _ hm)
      · exact absurd hm (by decide)
  · simp only [hq, if_false]
    exact h

/-- A record of newline-free fields is newline-free. -/
theorem newline_notin_csvRecord : ∀ fs : List (List Char),
    (∀ f ∈ fs, '\n' ∉ f) → '\n' ∉ csvRecord fs
  | [], _ => by simp [csvRecord]
  | [f], h => by
      simpa [csvRecord] using newline_notin_csvField f (h f (by simp))
  | f :: g :: fs, h => by
      have h1 := newline_notin_csvField f (h f (by simp))
      have h2 := newline_notin_csvRecord (g :: fs)
        (fun m hm => h m (List.mem_cons_of_mem f hm))
      intro hm
      have e : csvRecord (f :: g :: fs) = csvField f ++ ',' :: csvRecord (g :: fs) := rfl
      rw [e] at hm
      rcases List.mem_append.mp hm with hm | hm
      · exact h1 hm
      · rcases List.mem_cons.mp hm with h3 | hm
        · exact absurd h3 (by decide)
        · exact h2 hm

/-- A character needing no JSON escape is emitted verbatim. -/
theorem jsonEscapeChar_plain (c : Char) (hq : c ≠ '"') (hb : c ≠ '\\')
    (hctl : 32 ≤ c.toNat) : jsonEscapeChar c = [c] := by
  have h1 : c ≠ '\n' := by intro h; rw [h] at hctl; exact absurd hctl (by decide)
  have h2 : c ≠ '\t' := by intro h; rw [h] at hctl; exact absurd hctl (by decide)
  have h3 : c ≠ '\r' := by intro h; rw [h] at hctl; exact absurd hctl (by decide)
  have h4 : c ≠ '\x08' := by intro h; rw [h] at hctl; exact absurd hctl (by decide)
  have h5 : c ≠ '\x0c' := by intro h; rw [h] at hctl; exact absurd hctl (by decide)
  have h6 : ¬ c.toNat < 32 := by omega
  simp [jsonEscapeChar, hq, hb, h1, h2, h3, h4, h5, h6]

/-- A list of escape-free characters is flat-mapped to itself. -/
theorem flatMap_jsonEscapeChar_plain (s : List Char)
    (h : ∀ c ∈ s, c ≠ '"' ∧ c ≠ '\\' ∧ 32 ≤ c.toNat) :
    s.flatMap jsonEscapeChar = s := by
  induction s with
  | nil => rfl
  | cons c cs ih =>
      obtain ⟨h1, h2, h3⟩ := h c (List.mem_cons_self c cs)
      simp [List.flatMap_cons, jsonEscapeChar_plain c h1 h2 h3,
        ih (fun d hd => h d (List.mem_cons_of_mem c hd))]

/-! ## Claim theorems -/

/-- C1 (counterexample): for a stored response whose `meta` key is absent
entirely, no metric is rendered at all — in particular the display does not
show `N/A` metrics, contrary to the claim. -/
theorem metaBlock_absent_meta_hidden :
    metaBlock [("data", PyVal.list [PyVal.dict [("a", PyVal.str "x")]])]
        = RenderOutcome.hidden ∧
    (RenderOutcome.hidden : RenderOutcome MetricsView)
        ≠ RenderOutcome.shown
            { total_data := 1, page := PyVal.str "N/A",
              per_page := PyVal.str "N/A", total := PyVal.str "N/A" } :=
  ⟨rfl, fun h => nomatch h⟩

/-- C1 (amended): when `meta` is absent (or empty) the metrics block is not
rendered at all; when `meta` is present and non-empty, the record-count
metric is `len(data)` and `page`, `per_page`, `total` each fall back to
`N/A` when absent from the metadata. -/
theorem metaBlock_na_defaults (data : List PyVal) (mkvs : List (String × PyVal))
    (hne : mkvs ≠ [])
    (hp : dictGet mkvs "page" = Option.none)
    (hpp : dictGet mkvs "per_page" = Option.none)
    (ht : dictGet mkvs "total" = Option.none) :
    metaBlock [("data", PyVal.list data)] = RenderOutcome.hidden ∧
    metaBlock [("data", PyVal.list data), ("meta", PyVal.dict [])]
        = RenderOutcome.hidden ∧
    metaBlock [("data", PyVal.list data), ("meta", PyVal.dict mkvs)]
        = RenderOutcome.shown
            { total_data := data.length, page := PyVal.str "N/A",
              per_page := PyVal.str "N/A", total := PyVal.str "N/A" } := by
  refine ⟨?_, ?_, ?_⟩
  · simp [metaBlock, dictGet, pyTruthyVal]
  · simp [metaBlock, dictGet, pyTruthyVal]
  · simp only [dictGet] at hp hpp ht
    simp [metaBlock, dictGet, pyTruthyVal, pyLen, hne, hp, hpp, ht]

/-- C1 (witness). -/
theorem metaBlock_na_defaults_witness :
    metaBlock [("data", PyVal.list [PyVal.dict [("a", PyVal.str "x")]])]
        = RenderOutcome.hidden ∧
    metaBlock [("data", PyVal.list [PyVal.dict [("a", PyVal.str "x")]]),
               ("meta", PyVal.dict [])] = RenderOutcome.hidden ∧
    metaBlock [("data", PyVal.list [PyVal.dict [("a", PyVal.str "x")]]),
               ("meta", PyVal.dict [("extra", PyVal.int 7)])]
        = RenderOutcome.shown
            { total_data := 1, page := PyVal.str "N/A",
              per_page := PyVal.str "N/A", total := PyVal.str "N/A" } :=
  metaBlock_na_defaults [PyVal.dict [("a", PyVal.str "x")]]
    [("extra", PyVal.int 7)] (fun h => nomatch h) rfl rfl rfl

/-- C3 (counterexample): the search text is used as a regular expression,
not a literal: filtering on `"."` keeps the row `["xyz"]`, whose only
field does not contain `"."` as a substring, so the filter does not keep
exactly the case-insensitive-substring matches. -/
theorem searchFilter_dot_regex_cex :
    searchFilter "." [["xyz"]] = some [["xyz"]] ∧
    specSubstringFilter "." [["xyz"]] = [] ∧
    searchFilter "." [["xyz"]] ≠ some (specSubstringFilter "." [["xyz"]]) :=
  ⟨rfl, rfl, by decide⟩

/-- C3 (amended): for every record list and every non-empty search text
containing no regex metacharacter, the filter keeps exactly the records in
which the string form of some field contains the search text as a
case-insensitive substring. -/
theorem searchFilter_plain_substring (search : String)
    (rows : List (List String)) (hne : search ≠ "")
    (hplain : ∀ c ∈ search.data, c ∉ regexMetaChars) :
    searchFilter search rows = some (specSubstringFilter search rows) := by
  have hmask : rowMatches (search.data.map ReAtom.lit)
      = fun row => row.any (fun field => substrCI search.data field.data) := by
    funext row
    simp [rowMatches, reSearch_lit]
  rw [searchFilter, if_neg hne, parseSimplePattern_of_plain search.data hplain]
  simp [specSubstringFilter, hmask]

/-- C3 (witness): on the documented example, filtering on `"foo"` keeps
exactly the first record. -/
theorem searchFilter_plain_substring_witness :
    searchFilter "foo" [["Foo", "Bar"], ["Baz", "Qux"]]
        = some (specSubstringFilter "foo" [["Foo", "Bar"], ["Baz", "Qux"]]) ∧
    specSubstringFilter "foo" [["Foo", "Bar"], ["Baz", "Qux"]] = [["Foo", "Bar"]] :=
  ⟨searchFilter_plain_substring "foo" [["Foo", "Bar"], ["Baz", "Qux"]]
      (by decide) (by decide), rfl⟩

/-- C4: when the client call raises (HTTP status error, transport error, or
any other exception), the fetch handler displays an error message and the
session state is exactly what it was — no field is partially overwritten. -/
theorem fetchAction_error_preserves_state (s : SessionState) (u : Bool)
    (l : Int) (sd ed : Option String) (now : Nat)
    (net : Except String HttpResponse) (e : FetchError)
    (h : (get_ekatalog_data u l sd ed net).result = Except.error e) :
    (fetchAction s u l sd ed now net).1 = s ∧
    (fetchAction s u l sd ed now net).2
      = (get_ekatalog_data u l sd ed net).displayed
          ++ ["Gagal mengambil data: " ++ fetchErrorStr e] := by
  simp only [fetchAction]
  rw [h]
  exact ⟨rfl, rfl⟩

/-- C4 (witness): a concrete transport failure leaves a concrete prior
session state untouched. -/
theorem fetchAction_error_preserves_state_witness :
    (fetchAction
        { ekatalog_data := some (PyVal.dict [("data", PyVal.list [])]),
          last_fetch := some 5, is_archive := some false }
        true 10 Option.none Option.none 99
        (Except.error "Connection timed out")).1
      = { ekatalog_data := some (PyVal.dict [("data", PyVal.list [])]),
          last_fetch := some 5, is_archive := some false } ∧
    (fetchAction
        { ekatalog_data := some (PyVal.dict [("data", PyVal.list [])]),
          last_fetch := some 5, is_archive := some false }
        true 10 Option.none Option.none 99
        (Except.error "Connection timed out")).2
      = (get_ekatalog_data true 10 Option.none Option.none
          (Except.error "Connection timed out")).displayed
          ++ ["Gagal mengambil data: "
              ++ fetchErrorStr (FetchError.requestError "Connection timed out")] :=
  fetchAction_error_preserves_state
    { ekatalog_data := some (PyVal.dict [("data", PyVal.list [])]),
      last_fetch := some 5, is_archive := some false }
    true 10 Option.none Option.none 99
    (Except.error "Connection timed out")
    (FetchError.requestError "Connection timed out") rfl

/-- C5: the request URL's `/`-separated segments are fixed except for the
one path segment, which is `ekatalog-archive` iff `use_archive` and
`ekatalog` otherwise; the two URLs differ only in that segment. -/
theorem endpoint_segments (use_archive : Bool) :
    urlSegments (endpoint use_archive)
      = (["https:", "", "data.inaproc.id", "api", "v1",
          (if use_archive then "ekatalog-archive" else "ekatalog"),
          "paket-e-purchasing"]).map String.data := by
  cases use_archive <;> decide

/-- C6: the query parameters always include `limit`, and include
`start_date` (resp. `end_date`) iff the date-filter flag is enabled and
the respective date string is non-empty. -/
theorem params_keys_iff (use_date_filter : Bool) (startStr endStr : String)
    (limit : Int) :
    "limit" ∈ (buildParams limit
        (dateFilterValues use_date_filter startStr endStr).1
        (dateFilterValues use_date_filter startStr endStr).2).map Prod.fst ∧
    ("start_date" ∈ (buildParams limit
        (dateFilterValues use_date_filter startStr endStr).1
        (dateFilterValues use_date_filter startStr endStr).2).map Prod.fst
      ↔ use_date_filter = true ∧ startStr ≠ "") ∧
    ("end_date" ∈ (buildParams limit
        (dateFilterValues use_date_filter startStr endStr).1
        (dateFilterValues use_date_filter startStr endStr).2).map Prod.fst
      ↔ use_date_filter = true ∧ endStr ≠ "") := by
  cases use_date_filter <;>
    by_cases h1 : startStr = "" <;> by_cases h2 : endStr = "" <;>
      simp [dateFilterValues, buildParams, pyTruthyOptStr, h1, h2]

/-- C7 (counterexample): a non-2xx response outside 4xx/5xx — here 304 —
does not raise: the client parses and returns the body and displays no
error, so the claim does not hold for every non-2xx status. -/
theorem get_ekatalog_data_304_cex :
    (get_ekatalog_data false 5 Option.none Option.none
        (Except.ok { status_code := 304, text := "",
                     jsonBody := Except.ok (PyVal.dict []) })).result
      = Except.ok (PyVal.dict []) ∧
    (get_ekatalog_data false 5 Option.none Option.none
        (Except.ok { status_code := 304, text := "",
                     jsonBody := Except.ok (PyVal.dict []) })).displayed
      = [] :=
  ⟨rfl, rfl⟩

/-- C7 (amended): for every response whose status is a 4xx or 5xx error,
the fetch raises an HTTP status error carrying the exact status code and
raw body, and displays both to the operator before re-raising. -/
theorem get_ekatalog_data_4xx5xx_raises (u : Bool) (l : Int)
    (sd ed : Option String) (r : HttpResponse)
    (h4 : 400 ≤ r.status_code) (h6 : r.status_code < 600) :
    (get_ekatalog_data u l sd ed (Except.ok r)).result
      = Except.error (FetchError.httpError r.status_code r.text) ∧
    (get_ekatalog_data u l sd ed (Except.ok r)).displayed
      = ["❌ HTTP Error: " ++ toString r.status_code,
         "Response: " ++ r.text] := by
  simp only [get_ekatalog_data, raise_for_status]
  rw [if_pos (show 400 ≤ r.status_code ∧ r.status_code < 600 from ⟨h4, h6⟩)]
  exact ⟨rfl, rfl⟩

/-- C7 (witness): a 404 with a body. -/
theorem get_ekatalog_data_4xx5xx_raises_witness :
    (get_ekatalog_data false 5 Option.none Option.none
        (Except.ok { status_code := 404, text := "not found",
                     jsonBody := Except.error "Expecting value" })).result
      = Except.error (FetchError.httpError 404 "not found") ∧
    (get_ekatalog_data false 5 Option.none Option.none
        (Except.ok { status_code := 404, text := "not found",
                     jsonBody := Except.error "Expecting value" })).displayed
      = ["❌ HTTP Error: " ++ toString (404 : Nat),
         "Response: " ++ "not found"] :=
  get_ekatalog_data_4xx5xx_raises false 5 Option.none Option.none
    { status_code := 404, text := "not found",
      jsonBody := Except.error "Expecting value" }
    (by decide) (by decide)

/-- C8: the CSV export of a filtered view of N rows has exactly one header
line followed by the N data lines (the trailing newline contributes one
final empty fragment), with no index column: the header record lists
exactly the column names and each data record exactly the row's fields. -/
theorem to_csv_lines (cols : List String) (rows : List (List String))
    (hc : ∀ s ∈ cols, '\n' ∉ s.data)
    (hr : ∀ r ∈ rows, ∀ s ∈ r, '\n' ∉ s.data) :
    splitLines (to_csv cols rows false).data
      = (csvRecord (cols.map String.data)
          :: rows.map (fun r => csvRecord (r.map String.data))) ++ [[]] ∧
    (splitLines (to_csv cols rows false).data).length = rows.length + 2 := by
  have hrecs : ∀ l ∈ (csvRecord (cols.map String.data)
      :: rows.map (fun r => csvRecord (r.map String.data))), '\n' ∉ l := by
    intro l hl
    rcases List.mem_cons.mp hl with h | hl
    · subst h
      refine newline_notin_csvRecord _ ?_
      intro f hf
      rcases List.mem_map.mp hf with ⟨s, hs, rfl⟩
      exact hc s hs
    · rcases List.mem_map.mp hl with ⟨r, hrr, rfl⟩
      refine newline_notin_csvRecord _ ?_
      intro f hf
      rcases List.mem_map.mp hf with ⟨s, hs, rfl⟩
      exact hr r hrr s hs
  have hmain : splitLines (to_csv cols rows false).data
      = (csvRecord (cols.map String.data)
          :: rows.map (fun r => csvRecord (r.map String.data))) ++ [[]] := by
    unfold to_csv splitLines
    simpa using splitOnChar_blocks '\n' _ hrecs
  refine ⟨hmain, ?_⟩
  rw [hmain]
  simp

/-- C8 (witness): a two-row view with a comma-carrying field. -/
theorem to_csv_lines_witness :
    splitLines (to_csv ["a", "b"] [["1", "2"], ["3,4", "x"]] false).data
      = (csvRecord (["a", "b"].map String.data)
          :: [["1", "2"], ["3,4", "x"]].map (fun r => csvRecord (r.map String.data)))
        ++ [[]] ∧
    (splitLines (to_csv ["a", "b"] [["1", "2"], ["3,4", "x"]] false).data).length
      = 2 + 2 :=
  to_csv_lines ["a", "b"] [["1", "2"], ["3,4", "x"]] (by decide) (by decide)

/-- C9: the JSON download payload is the dump of the full, unfiltered
stored response whatever the search text is, and with
`ensure_ascii=False` every character needing no JSON escape — non-ASCII
characters included — appears verbatim in a dumped string. -/
theorem json_export_full_response :
    (∀ (resp : PyVal) (cols : List String) (rows : List (List String))
        (search : String) (out : String × String),
        renderDownloads resp cols rows search = some out
          → out.2 = pyJsonDumps resp) ∧
    (∀ s : String, (∀ c ∈ s.data, c ≠ '"' ∧ c ≠ '\\' ∧ 32 ≤ c.toNat)
        → jsonDumpStr s = "\"" ++ s ++ "\"") := by
  constructor
  · intro resp cols rows search out h
    unfold renderDownloads at h
    rcases Option.map_eq_some'.mp h with ⟨filtered, _, rfl⟩
    rfl
  · intro s h
    apply String.ext
    show '"' :: (s.data.flatMap jsonEscapeChar ++ ['"'])
        = ("\"" ++ s ++ "\"").data
    rw [flatMap_jsonEscapeChar_plain s.data h]
    simp [String.data_append]

/-- C9 (witness): with a non-ASCII response stored, the JSON payload under
an active search equals the dump of the full response, and the non-ASCII
string dumps verbatim. -/
theorem json_export_full_response_witness :
    ((to_csv ["a"] [["x"]] false,
        pyJsonDumps (PyVal.dict [("note", PyVal.str "héllo")])).2
      = pyJsonDumps (PyVal.dict [("note", PyVal.str "héllo")])) ∧
    jsonDumpStr "héllo" = "\"" ++ "héllo" ++ "\"" :=
  ⟨json_export_full_response.1 (PyVal.dict [("note", PyVal.str "héllo")])
      ["a"] [["x"], ["y"]] "x" _ rfl,
   json_export_full_response.2 "héllo" (by decide)⟩

/-- C10: whenever the filter runs, the filtered view is an order-preserving
subsequence of the rows, its length never exceeds the total count, and an
empty search text leaves the view equal to the original list. -/
theorem searchFilter_sublist (search : String) (rows filtered : List (List String))
    (h : searchFilter search rows = some filtered) :
    filtered.Sublist rows ∧ filtered.length ≤ rows.length ∧
    (search = "" → filtered = rows) := by
  unfold searchFilter at h
  by_cases hs : search = ""
  · rw [if_pos hs] at h
    obtain rfl : rows = filtered := Option.some.inj h
    exact ⟨List.Sublist.refl rows, le_refl _, fun _ => rfl⟩
  · rw [if_neg hs] at h
    rcases Option.map_eq_some'.mp h with ⟨atoms, _, rfl⟩
    refine ⟨List.filter_sublist rows, List.length_filter_le _ rows, ?_⟩
    intro heq
    exact absurd heq hs

/-- C10 (witness). -/
theorem searchFilter_sublist_witness :
    ([["Foo", "Bar"]] : List (List String)).Sublist [["Foo", "Bar"], ["Baz", "Qux"]] ∧
    ([["Foo", "Bar"]] : List (List String)).length
        ≤ ([["Foo", "Bar"], ["Baz", "Qux"]] : List (List String)).length ∧
    ("bar" = "" → [["Foo", "Bar"]] = [["Foo", "Bar"], ["Baz", "Qux"]]) :=
  searchFilter_sublist "bar" [["Foo", "Bar"], ["Baz", "Qux"]]
    [["Foo", "Bar"]] (by decide)

end Inaproc
